import Mathlib

/-!
Shallow embedding of the beadmaster reconciliation core:
the unified task model (src/core/types.ts), the two adapters'
normalization maps (src/adapters/taskmaster.ts, src/adapters/beads.ts),
and the SyncEngine operations `sync`, `link`, `unlink` (src/core/sync.ts).

Modelling conventions:
- JS `Date` values are modelled as millisecond timestamps (`Nat`).
- JS numbers used as Task-Master ids are modelled as `Option Int`,
  with `none` standing for the non-numeric result NaN of `parseInt`
  (NaN compares equal to itself under a JS `Map`'s SameValueZero key
  equality, which `Option` BEq reproduces).
- The Beads adapter's effectful calls (`createIssue`, `updateStatus`)
  and the Task-Master adapter's `updateStatus` are modelled as an
  environment (`SyncEnv`) supplying `createIssue` results, plus an
  explicit `Mutation` trace recording every adapter mutation issued.
- Writing the link store to disk (`saveLinks`) is modelled by the
  `saved : Option LinkStore` component of each operation's outcome:
  `none` means the store file was not written.
-/

/-- Unified status vocabulary (types.ts `TaskStatus`). -/
inductive TaskStatus where
  | pending
  | in_progress
  | done
  | blocked
  | cancelled
deriving DecidableEq, Repr

/-- The string a unified status interpolates to in a JS template literal. -/
def statusStr : TaskStatus → String
  | .pending => "pending"
  | .in_progress => "in_progress"
  | .done => "done"
  | .blocked => "blocked"
  | .cancelled => "cancelled"

/-- Source system tag (types.ts `TaskSource.system`). -/
inductive SystemTag where
  | taskmaster
  | beads
deriving DecidableEq, Repr

/-- types.ts `TaskSource` (the `rawData` debugging payload is omitted). -/
structure TaskSource where
  system : SystemTag
  id : String
deriving DecidableEq, Repr

/-- types.ts `UnifiedTask`. -/
structure UnifiedTask where
  id : String
  title : String
  description : Option String
  status : TaskStatus
  priority : Nat
  parentId : Option String
  dependencies : Option (List String)
  createdAt : Option Nat
  updatedAt : Option Nat
  sources : List TaskSource
deriving DecidableEq, Repr

/-- types.ts `TaskLink`.  `tmId` is `Option Int`: `none` models a NaN id. -/
structure TaskLink where
  tmId : Option Int
  beadId : String
  linkedAt : Nat
  autoLinked : Bool
deriving DecidableEq, Repr

/-- types.ts `LinkStore`. -/
structure LinkStore where
  version : Nat
  links : List TaskLink
  lastSync : Option Nat
deriving DecidableEq, Repr

/-- The fresh store returned by `loadLinks` when no file exists. -/
def emptyLinkStore : LinkStore := ⟨1, [], none⟩

/-- types.ts `SyncOptions.direction` values. -/
inductive SyncDirection where
  | bidirectional
  | tm_to_beads
  | beads_to_tm
deriving DecidableEq, Repr

/-- types.ts `SyncOptions` (`direction` is optional in TS). -/
structure SyncOptions where
  dryRun : Bool := false
  direction : Option SyncDirection := none
  force : Bool := false
  verbose : Bool := false
deriving DecidableEq, Repr

/-- types.ts `SyncAction.direction` values. -/
inductive ActionDirection where
  | tm_to_beads
  | beads_to_tm
  | both
deriving DecidableEq, Repr

/-- types.ts `SyncAction`. -/
structure SyncAction where
  task : UnifiedTask
  direction : ActionDirection
  reason : String
deriving DecidableEq, Repr

/-- types.ts `SyncConflict`; the engine only ever stores statuses in the
`unknown`-typed value fields, so they are typed `TaskStatus` here. -/
structure SyncConflict where
  task : UnifiedTask
  tmValue : TaskStatus
  beadsValue : TaskStatus
  field : String
deriving DecidableEq, Repr

/-- types.ts `SyncResult.stats`.  `unlinked` is computed by subtraction and
can go negative, hence `Int`. -/
structure SyncStats where
  taskmasterTasks : Nat
  beadIssues : Nat
  linked : Nat
  unlinked : Int
deriving DecidableEq, Repr

/-- types.ts `SyncResult`. -/
structure SyncResult where
  created : List SyncAction
  updated : List SyncAction
  conflicts : List SyncConflict
  skipped : List SyncAction
  stats : SyncStats
deriving DecidableEq, Repr

/-- One adapter mutation issued by the engine.  `createIssue` carries the
title, the priority and the Task-Master id passed in the `meta` record;
the two status updates carry the target id and the new status. -/
inductive Mutation where
  | createIssue (title : String) (priority : Nat) (tmId : Option Int)
  | beadsUpdateStatus (beadId : String) (status : TaskStatus)
  | tmUpdateStatus (tmId : Option Int) (status : TaskStatus)
deriving DecidableEq, Repr

/-- Adapter environment: the result of `BeadsAdapter.createIssue` for a
given call (`some beadId` on success, `none` when the CLI is unavailable
or the command fails). -/
structure SyncEnv where
  createIssue : String → Nat → Option Int → Option String

/-- Everything a `sync` call produces: the returned result, the final
in-memory link store, the store written to disk (if any), and the trace
of adapter mutations. -/
structure SyncOutcome where
  result : SyncResult
  store : LinkStore
  saved : Option LinkStore
  mutations : List Mutation

/-! ### JS `Map` model

A JS `Map` built from key/value pairs, with SameValueZero key equality
(reproduced by `BEq`).  `set` prepends, `get` takes the first hit, so
`mOfList` (which sets the entries left to right, later entries winning)
is list reversal. -/

def JsMap (α β : Type) : Type := List (α × β)

def mGet [BEq α] (m : JsMap α β) (k : α) : Option β :=
  (m.find? fun p => p.1 == k).map (·.2)

def mSet (m : JsMap α β) (k : α) (v : β) : JsMap α β := (k, v) :: m

def mOfList (l : List (α × β)) : JsMap α β := l.reverse

def mHas [BEq α] (m : JsMap α β) (k : α) : Bool := (mGet m k).isSome

/-! ### Digit and number helpers -/

def digitsToNat (cs : List Char) : Nat :=
  cs.foldl (fun a c => a * 10 + (c.toNat - 48)) 0

/-- JS `parseInt(s, 10)`: skip leading whitespace, optional sign, then a
maximal digit run; `none` (NaN) when no digit is found. -/
def jsParseInt (s : String) : Option Int :=
  let cs := s.data.dropWhile (fun c => c = ' ' || c = '\t' || c = '\n' || c = '\r')
  let signAndRest : Bool × List Char :=
    match cs with
    | '-' :: r => (true, r)
    | '+' :: r => (false, r)
    | r => (false, r)
  let ds := signAndRest.2.takeWhile Char.isDigit
  if ds.isEmpty then none
  else some (if signAndRest.1 then -(digitsToNat ds : Int) else (digitsToNat ds : Int))

/-- How a Task-Master id interpolates into a JS template literal
(`NaN` prints as `"NaN"`). -/
def jsNumStr : Option Int → String
  | some n => toString n
  | none => "NaN"

/-! ### Task Master adapter (src/adapters/taskmaster.ts) -/

namespace TaskMasterAdapter

/-- types.ts `TaskMasterTask` after `readTasks` id normalization (fields
not read by `toUnified` — `subtasks`, `details`, `testStrategy`, `tags` —
are omitted).  Date strings are modelled as millisecond timestamps. -/
structure TaskMasterTask where
  id : Int
  title : String
  description : Option String
  status : String
  priority : Option String
  dependencies : Option (List Int)
  parentId : Option Int
  createdAt : Option Nat
  updatedAt : Option Nat
deriving DecidableEq, Repr

/-- Source `normalizeStatus`: fixed lookup map, fallback `pending`. -/
def normalizeStatus (status : String) : TaskStatus :=
  if status = "pending" then .pending
  else if status = "in-progress" then .in_progress
  else if status = "done" then .done
  else if status = "deferred" then .pending
  else if status = "cancelled" then .cancelled
  else if status = "blocked" then .blocked
  else if status = "review" then .in_progress
  else .pending

/-- The `{ high: 1, medium: 2, low: 3 }` lookup inside `normalizePriority`. -/
def priorityMap (s : String) : Option Nat :=
  if s = "high" then some 1
  else if s = "medium" then some 2
  else if s = "low" then some 3
  else none

/-- Source `normalizePriority`: `priority ? (map[priority] ?? 2) : 2` — an absent
(or falsy empty) priority gives 2, an unrecognized string gives 2. -/
def normalizePriority (priority : Option String) : Nat :=
  match priority with
  | some s => if s ≠ "" then (priorityMap s).getD 2 else 2
  | none => 2

/-- Source `toUnified` (taskmaster.ts lines 55-74).  JS truthiness: a `parentId`
of 0 is falsy and maps to `undefined`. -/
def toUnified (task : TaskMasterTask) : UnifiedTask :=
  { id := "tm:" ++ toString task.id
    title := task.title
    description := task.description
    status := normalizeStatus task.status
    priority := normalizePriority task.priority
    parentId :=
      match task.parentId with
      | some p => if p ≠ 0 then some ("tm:" ++ toString p) else none
      | none => none
    dependencies := task.dependencies.map (List.map fun d => "tm:" ++ toString d)
    createdAt := task.createdAt
    updatedAt := task.updatedAt
    sources := [⟨SystemTag.taskmaster, toString task.id⟩] }

end TaskMasterAdapter

/-! ### Beads adapter (src/adapters/beads.ts) -/

namespace BeadsAdapter

/-- types.ts `BeadDependency`. -/
structure BeadDependency where
  type : String
  target_id : String
deriving DecidableEq, Repr

/-- types.ts `BeadIssue` (fields not read by `toUnified` — `closed_at`,
`closed_reason`, `meta` — are omitted).  `priority` is a plain number in
the source (`number`, documented range 0-4) and is modelled as `Nat`. -/
structure BeadIssue where
  id : String
  title : String
  type : String
  status : String
  priority : Nat
  created_at : Nat
  updated_at : Option Nat
  parent_id : Option String
  dependencies : Option (List BeadDependency)
  notes : Option String
deriving DecidableEq, Repr

/-- Source `normalizeStatus`: open maps to pending, in_progress to
in_progress, closed to done, anything else falls back to pending. -/
def normalizeStatus (status : String) : TaskStatus :=
  if status = "open" then .pending
  else if status = "in_progress" then .in_progress
  else if status = "closed" then .done
  else .pending

/-- Source `toUnified` (beads.ts lines 79-98).  JS truthiness: an empty-string
`parent_id` is falsy and maps to `undefined`.  The native priority is
copied through without any range check (`issue.priority as Priority`). -/
def toUnified (issue : BeadIssue) : UnifiedTask :=
  { id := "bead:" ++ issue.id
    title := issue.title
    description := issue.notes
    status := normalizeStatus issue.status
    priority := issue.priority
    parentId :=
      match issue.parent_id with
      | some p => if p ≠ "" then some ("bead:" ++ p) else none
      | none => none
    dependencies := issue.dependencies.map (List.map fun d => "bead:" ++ d.target_id)
    createdAt := some issue.created_at
    updatedAt := issue.updated_at
    sources := [⟨SystemTag.beads, issue.id⟩] }

/-- A maximal nonempty digit run followed by the closing character:
the `(\d+)` capture of `/X-(\d+)c/` once `X-` has been consumed. -/
def matchDigitsThen (cs : List Char) (close : Char) : Option Int :=
  let ds := cs.takeWhile Char.isDigit
  if ds.isEmpty then none
  else if (cs.dropWhile Char.isDigit).head? = some close then
    some (digitsToNat ds : Nat)
  else none

/-- Pattern `/^TM-(\d+):/` — `TM-85: Title`. -/
def patTMColon (s : String) : Option Int :=
  match s.data with
  | 'T' :: 'M' :: '-' :: rest => matchDigitsThen rest ':'
  | _ => none

/-- Pattern `/^\[TM-(\d+)\]/` — `[TM-85] Title`. -/
def patTMBracket (s : String) : Option Int :=
  match s.data with
  | '[' :: 'T' :: 'M' :: '-' :: rest => matchDigitsThen rest ']'
  | _ => none

/-- Pattern `/^tm:(\d+)/i` — `tm:85 Title` (case-insensitive prefix). -/
def patTmCi (s : String) : Option Int :=
  match s.data with
  | c1 :: c2 :: ':' :: rest =>
    if c1.toLower = 't' ∧ c2.toLower = 'm' then
      let ds := rest.takeWhile Char.isDigit
      if ds.isEmpty then none else some (digitsToNat ds : Nat)
    else none
  | _ => none

/-- Leftmost match of `/\(TM-(\d+)\)/`: scan forward one character at a
time; at each position require `(TM-`, a nonempty digit run, then `)`. -/
def scanTMParen : List Char → Option Int
  | [] => none
  | c :: rest =>
    match c, rest with
    | '(', 'T' :: 'M' :: '-' :: r =>
      (match matchDigitsThen r ')' with
       | some n => some n
       | none => scanTMParen rest)
    | _, _ => scanTMParen rest

/-- Pattern `/\(TM-(\d+)\)/` — `Title (TM-85)`, anywhere in the title. -/
def patTMParen (s : String) : Option Int :=
  scanTMParen s.data

/-- First pattern of the list to match wins. -/
def firstMatch : List (String → Option Int) → String → Option Int
  | [], _ => none
  | p :: ps, s =>
    match p s with
    | some n => some n
    | none => firstMatch ps s

/-- The pattern list of `extractTmId`, in the source's order
(beads.ts lines 206-211). -/
def tmIdPatterns : List (String → Option Int) :=
  [patTMColon, patTMBracket, patTmCi, patTMParen]

/-- Source `extractTmId` (beads.ts lines 205-221): try the conventions in order,
first match wins, `none` when no pattern applies. -/
def extractTmId (title : String) : Option Int :=
  firstMatch tmIdPatterns title

/-- Modelled from the spec: identifier extraction in the *spec's* stated
priority order — `"TM-<n>:"` prefix, `"[TM-<n>]"` prefix, `"(TM-<n>)"`
anywhere, then the case-insensitive `"tm:<n>"` prefix — for comparison
with the source's `extractTmId`, whose last two patterns are swapped. -/
def extractTmIdSpecOrder (title : String) : Option Int :=
  firstMatch [patTMColon, patTMBracket, patTMParen, patTmCi] title

end BeadsAdapter

/-! ### Sync engine (src/core/sync.ts) -/

namespace SyncEngine

/-- State threaded through the auto-link pass (sync.ts lines 100-118):
the growing `linkStore.links` array and the two lookup maps
`linkByTmId` / `linkByBeadId`, which this pass keeps in step with the
array (the later passes do not). -/
structure ALState where
  links : List TaskLink
  mapTm : JsMap (Option Int) TaskLink
  mapBead : JsMap String TaskLink

/-- One iteration of the auto-link loop.  JS truthiness: the guard
`if (tmId && ...)` rejects the extracted id 0. -/
def autoLinkStep (now : Nat) (st : ALState) (beadTask : UnifiedTask) : ALState :=
  match beadTask.sources.find? (fun s => s.system == SystemTag.beads) with
  | none => st
  | some beadSource =>
    match BeadsAdapter.extractTmId beadTask.title with
    | none => st
    | some tmId =>
      if tmId ≠ 0 ∧ mHas st.mapTm (some tmId) = false ∧ mHas st.mapBead beadSource.id = false then
        let link : TaskLink := ⟨some tmId, beadSource.id, now, true⟩
        ⟨st.links ++ [link], mSet st.mapTm (some tmId) link, mSet st.mapBead beadSource.id link⟩
      else st

/-- State threaded through the Task-Master pass (sync.ts lines 121-203):
the links array plus the mutable `result` fields and the mutation trace. -/
structure TmPassState where
  links : List TaskLink
  created : List SyncAction
  updated : List SyncAction
  conflicts : List SyncConflict
  skipped : List SyncAction
  mutations : List Mutation

/-- One iteration of the Task-Master loop.  `mapTm` is the `linkByTmId`
map as it stood at the end of the auto-link pass — the source never
updates it during this pass, even when it pushes a new link. -/
def tmPassStep (env : SyncEnv) (opts : SyncOptions) (now : Nat)
    (beadById : JsMap String UnifiedTask) (mapTm : JsMap (Option Int) TaskLink)
    (st : TmPassState) (tmTask : UnifiedTask) : TmPassState :=
  match tmTask.sources.find? (fun s => s.system == SystemTag.taskmaster) with
  | none => st
  | some tmSource =>
    let tmId := jsParseInt tmSource.id
    match mGet mapTm tmId with
    | none =>
      let action : SyncAction := ⟨tmTask, ActionDirection.tm_to_beads, "No linked bead found"⟩
      if opts.dryRun then
        { st with created := st.created ++ [action] }
      else
        let title := "TM-" ++ jsNumStr tmId ++ ": " ++ tmTask.title
        let res := env.createIssue title tmTask.priority tmId
        { st with
            links :=
              match res with
              | some beadId => st.links ++ [⟨tmId, beadId, now, false⟩]
              | none => st.links
            mutations := st.mutations ++ [Mutation.createIssue title tmTask.priority tmId]
            created := st.created ++ [action] }
    | some link =>
      match mGet beadById ("bead:" ++ link.beadId) with
      | none => st
      | some beadTask =>
        if tmTask.status = beadTask.status then st
        else
          let tmUpdated := tmTask.updatedAt.getD 0
          let beadUpdated := beadTask.updatedAt.getD 0
          if tmUpdated > beadUpdated then
            { st with
                updated := st.updated ++
                  [⟨tmTask, ActionDirection.tm_to_beads,
                    "Status: " ++ statusStr beadTask.status ++ " → " ++ statusStr tmTask.status⟩]
                mutations := st.mutations ++
                  (if opts.dryRun then [] else [Mutation.beadsUpdateStatus link.beadId tmTask.status]) }
          else if beadUpdated > tmUpdated then
            { st with
                updated := st.updated ++
                  [⟨beadTask, ActionDirection.beads_to_tm,
                    "Status: " ++ statusStr tmTask.status ++ " → " ++ statusStr beadTask.status⟩]
                mutations := st.mutations ++
                  (if opts.dryRun then [] else [Mutation.tmUpdateStatus tmId beadTask.status]) }
          else
            { st with
                conflicts := st.conflicts ++
                  [⟨tmTask, tmTask.status, beadTask.status, "status"⟩] }

/-- The whole auto-link pass: fold `autoLinkStep` over the bead tasks,
starting from the stored links and the two maps `linkByTmId` /
`linkByBeadId` built from them (sync.ts lines 97-118). -/
def autoLinkPass (now : Nat) (store0 : LinkStore) (beadTasks : List UnifiedTask) : ALState :=
  beadTasks.foldl (autoLinkStep now)
    ⟨store0.links, mOfList (store0.links.map fun l => (l.tmId, l)),
      mOfList (store0.links.map fun l => (l.beadId, l))⟩

/-- Source `SyncEngine.sync` (sync.ts lines 72-216), over the task snapshots the
two adapters would return.  `now` is the wall clock used for `linkedAt`
and `lastSync`. -/
def sync (env : SyncEnv) (tmTasks beadTasks : List UnifiedTask)
    (store0 : LinkStore) (opts : SyncOptions) (now : Nat) : SyncOutcome :=
  let beadById := mOfList (beadTasks.map fun t => (t.id, t))
  let al := autoLinkPass now store0 beadTasks
  let st0 : TmPassState := ⟨al.links, [], [], [], [], []⟩
  let st :=
    if opts.direction = some SyncDirection.beads_to_tm then st0
    else tmTasks.foldl (tmPassStep env opts now beadById al.mapTm) st0
  let stats : SyncStats :=
    ⟨tmTasks.length, beadTasks.length, st.links.length,
      (tmTasks.length : Int) - (st.links.length : Int)⟩
  let result : SyncResult := ⟨st.created, st.updated, st.conflicts, st.skipped, stats⟩
  if opts.dryRun then
    ⟨result, { store0 with links := st.links }, none, st.mutations⟩
  else
    let store1 : LinkStore := { store0 with links := st.links, lastSync := some now }
    ⟨result, store1, some store1, st.mutations⟩

/-- Result of a manual `link`/`unlink` call: the boolean return value,
the resulting store, and the store written to disk (if any). -/
structure CallResult where
  ok : Bool
  store : LinkStore
  saved : Option LinkStore

/-- Source `SyncEngine.link` (sync.ts lines 224-250). -/
def link (store : LinkStore) (tmId : Int) (beadId : String) (now : Nat) : CallResult :=
  if (store.links.find? fun l => l.tmId == some tmId).isSome then
    ⟨false, store, none⟩
  else if (store.links.find? fun l => l.beadId == beadId).isSome then
    ⟨false, store, none⟩
  else
    let store1 : LinkStore :=
      { store with links := store.links ++ [⟨some tmId, beadId, now, false⟩], lastSync := some now }
    ⟨true, store1, some store1⟩

/-- The `/^(?:tm[:\-])?(\d+)$/i` identifier test of `unlink`: an optional
case-insensitive `tm:`/`tm-` prefix, then digits only, to the end. -/
def unlinkTmMatch (s : String) : Option Int :=
  let cs := s.data
  let core :=
    match cs with
    | c1 :: c2 :: c3 :: rest =>
      if c1.toLower = 't' ∧ c2.toLower = 'm' ∧ (c3 = ':' ∨ c3 = '-') then rest else cs
    | _ => cs
  if core ≠ [] ∧ core.all Char.isDigit then some (digitsToNat core : Nat) else none

/-- Source `SyncEngine.unlink` (sync.ts lines 253-272): filter by Task-Master id
when the identifier matches the numeric pattern, by bead id otherwise;
persist only when the filter actually removed something. -/
def unlink (store : LinkStore) (identifier : String) (now : Nat) : CallResult :=
  let links1 :=
    match unlinkTmMatch identifier with
    | some tmId => store.links.filter fun l => ¬(l.tmId = some tmId)
    | none => store.links.filter fun l => ¬(l.beadId = identifier)
  if links1.length < store.links.length then
    let store1 : LinkStore := { store with links := links1, lastSync := some now }
    ⟨true, store1, some store1⟩
  else
    ⟨false, store, none⟩

end SyncEngine

/-! ### Helper lemmas about the Task-Master pass -/

namespace SyncEngine

/-- No branch of the Task-Master loop touches `result.skipped`. -/
lemma tmPassStep_skipped (env : SyncEnv) (opts : SyncOptions) (now : Nat)
    (bById : JsMap String UnifiedTask) (mTm : JsMap (Option Int) TaskLink)
    (st : TmPassState) (t : UnifiedTask) :
    (tmPassStep env opts now bById mTm st t).skipped = st.skipped := by
  unfold tmPassStep
  cases hfind : t.sources.find? (fun s => s.system == SystemTag.taskmaster) with
  | none => rfl
  | some src =>
    simp only
    cases hget : mGet mTm (jsParseInt src.id) with
    | none => by_cases h : opts.dryRun <;> simp [h]
    | some lnk =>
      simp only
      cases hbead : mGet bById ("bead:" ++ lnk.beadId) with
      | none => rfl
      | some bt =>
        simp only
        by_cases hst : t.status = bt.status
        · simp [hst]
        · by_cases hgt : t.updatedAt.getD 0 > bt.updatedAt.getD 0
          · simp [hst, hgt]
          · by_cases hlt : bt.updatedAt.getD 0 > t.updatedAt.getD 0 <;> simp [hst, hgt, hlt]

lemma tmPass_skipped (env : SyncEnv) (opts : SyncOptions) (now : Nat)
    (bById : JsMap String UnifiedTask) (mTm : JsMap (Option Int) TaskLink)
    (ts : List UnifiedTask) (st : TmPassState) :
    (ts.foldl (tmPassStep env opts now bById mTm) st).skipped = st.skipped := by
  induction ts generalizing st with
  | nil => rfl
  | cons t ts ih => rw [List.foldl_cons, ih, tmPassStep_skipped]

/-- In dry-run mode the Task-Master loop issues no adapter mutation. -/
lemma tmPassStep_mutations_dry (env : SyncEnv) (opts : SyncOptions) (now : Nat)
    (bById : JsMap String UnifiedTask) (mTm : JsMap (Option Int) TaskLink)
    (st : TmPassState) (t : UnifiedTask) (hdry : opts.dryRun = true) :
    (tmPassStep env opts now bById mTm st t).mutations = st.mutations := by
  unfold tmPassStep
  cases hfind : t.sources.find? (fun s => s.system == SystemTag.taskmaster) with
  | none => rfl
  | some src =>
    simp only
    cases hget : mGet mTm (jsParseInt src.id) with
    | none => simp [hdry]
    | some lnk =>
      simp only
      cases hbead : mGet bById ("bead:" ++ lnk.beadId) with
      | none => rfl
      | some bt =>
        simp only
        by_cases hst : t.status = bt.status
        · simp [hst]
        · by_cases hgt : t.updatedAt.getD 0 > bt.updatedAt.getD 0
          · simp [hst, hgt, hdry]
          · by_cases hlt : bt.updatedAt.getD 0 > t.updatedAt.getD 0 <;> simp [hst, hgt, hlt, hdry]

lemma tmPass_mutations_dry (env : SyncEnv) (opts : SyncOptions) (now : Nat)
    (bById : JsMap String UnifiedTask) (mTm : JsMap (Option Int) TaskLink)
    (ts : List UnifiedTask) (st : TmPassState) (hdry : opts.dryRun = true) :
    (ts.foldl (tmPassStep env opts now bById mTm) st).mutations = st.mutations := by
  induction ts generalizing st with
  | nil => rfl
  | cons t ts ih => rw [List.foldl_cons, ih, tmPassStep_mutations_dry _ _ _ _ _ _ _ hdry]

/-- The recorded actions (created / updated / conflicts) of one loop
iteration do not depend on the adapter environment or on the dry-run
flag: both runs append the identical action descriptions. -/
lemma tmPassStep_sim (env1 env2 : SyncEnv) (o1 o2 : SyncOptions) (now : Nat)
    (bById : JsMap String UnifiedTask) (mTm : JsMap (Option Int) TaskLink)
    (st1 st2 : TmPassState) (t : UnifiedTask)
    (hc : st1.created = st2.created) (hu : st1.updated = st2.updated)
    (hx : st1.conflicts = st2.conflicts) :
    (tmPassStep env1 o1 now bById mTm st1 t).created
        = (tmPassStep env2 o2 now bById mTm st2 t).created
      ∧ (tmPassStep env1 o1 now bById mTm st1 t).updated
        = (tmPassStep env2 o2 now bById mTm st2 t).updated
      ∧ (tmPassStep env1 o1 now bById mTm st1 t).conflicts
        = (tmPassStep env2 o2 now bById mTm st2 t).conflicts := by
  unfold tmPassStep
  cases hfind : t.sources.find? (fun s => s.system == SystemTag.taskmaster) with
  | none => exact ⟨hc, hu, hx⟩
  | some src =>
    simp only
    cases hget : mGet mTm (jsParseInt src.id) with
    | none =>
      by_cases h1 : o1.dryRun <;> by_cases h2 : o2.dryRun <;>
        simp [h1, h2, hc, hu, hx]
    | some lnk =>
      simp only
      cases hbead : mGet bById ("bead:" ++ lnk.beadId) with
      | none => exact ⟨hc, hu, hx⟩
      | some bt =>
        simp only
        by_cases hst : t.status = bt.status
        · simp [hst, hc, hu, hx]
        · by_cases hgt : t.updatedAt.getD 0 > bt.updatedAt.getD 0
          · simp [hst, hgt, hc, hu, hx]
          · by_cases hlt : bt.updatedAt.getD 0 > t.updatedAt.getD 0 <;>
              simp [hst, hgt, hlt, hc, hu, hx]

lemma tmPass_sim (env1 env2 : SyncEnv) (o1 o2 : SyncOptions) (now : Nat)
    (bById : JsMap String UnifiedTask) (mTm : JsMap (Option Int) TaskLink)
    (ts : List UnifiedTask) (st1 st2 : TmPassState)
    (hc : st1.created = st2.created) (hu : st1.updated = st2.updated)
    (hx : st1.conflicts = st2.conflicts) :
    (ts.foldl (tmPassStep env1 o1 now bById mTm) st1).created
        = (ts.foldl (tmPassStep env2 o2 now bById mTm) st2).created
      ∧ (ts.foldl (tmPassStep env1 o1 now bById mTm) st1).updated
        = (ts.foldl (tmPassStep env2 o2 now bById mTm) st2).updated
      ∧ (ts.foldl (tmPassStep env1 o1 now bById mTm) st1).conflicts
        = (ts.foldl (tmPassStep env2 o2 now bById mTm) st2).conflicts := by
  induction ts generalizing st1 st2 with
  | nil => exact ⟨hc, hu, hx⟩
  | cons t ts ih =>
    obtain ⟨hc', hu', hx'⟩ := tmPassStep_sim env1 env2 o1 o2 now bById mTm st1 st2 t hc hu hx
    exact ih _ _ hc' hu' hx'

end SyncEngine

/-! ### Concrete fixtures used by counterexamples and witnesses -/

/-- An adapter environment whose `bd create` always fails. -/
def envNone : SyncEnv := ⟨fun _ _ _ => none⟩

/-- A Task-Master task linked as `tm:1`, status `pending`, updated at 5. -/
def tmFix : UnifiedTask :=
  ⟨"tm:1", "Add cache", none, .pending, 2, none, none, none, some 5, [⟨.taskmaster, "1"⟩]⟩

/-- A bead `x`, status `in_progress`, updated at 5 (same instant as `tmFix`). -/
def bdFix : UnifiedTask :=
  ⟨"bead:x", "work", none, .in_progress, 2, none, none, some 0, some 5, [⟨.beads, "x"⟩]⟩

/-- Like `bdFix`, but strictly newer than `tmFix`. -/
def bdFixNewer : UnifiedTask := { bdFix with updatedAt := some 7 }

/-- The persisted link joining `tmFix` and `bdFix`. -/
def linkFix : TaskLink := ⟨some 1, "x", 0, false⟩

/-- A link store holding exactly `linkFix`. -/
def storeFix : LinkStore := ⟨1, [linkFix], none⟩

/-- An unlinked Task-Master task with native id 2. -/
def tmFix2 : UnifiedTask :=
  ⟨"tm:2", "Add cache", none, .pending, 2, none, none, none, none, [⟨.taskmaster, "2"⟩]⟩

/-! ### C10 — `result.skipped` is never populated -/

/-- C10: for every options value and every pair of input task snapshots,
the `SyncResult` returned by `sync` has an empty `skipped` list — no code
path of the engine ever appends to it. -/
theorem sync_skipped_always_empty (env : SyncEnv) (tmTasks beadTasks : List UnifiedTask)
    (store : LinkStore) (opts : SyncOptions) (now : Nat) :
    (SyncEngine.sync env tmTasks beadTasks store opts now).result.skipped = [] := by
  unfold SyncEngine.sync
  by_cases hdir : opts.direction = some SyncDirection.beads_to_tm <;>
    by_cases hdry : opts.dryRun <;>
      simp [hdir, hdry, SyncEngine.tmPass_skipped]

/-! ### C3 — direction `beads_to_tm` skips the whole pass -/

/-- C3 (counterexample): a linked pair with differing statuses where the
bead side is strictly newer, synced with direction `beads_to_tm`, records
no `updated` action and performs no mutation — the claimed B→A status
propagation does not happen. -/
theorem sync_beads_to_tm_no_propagation_cex :
    bdFixNewer.updatedAt.getD 0 > tmFix.updatedAt.getD 0
    ∧ tmFix.status ≠ bdFixNewer.status
    ∧ (SyncEngine.sync envNone [tmFix] [bdFixNewer] storeFix
        ⟨false, some SyncDirection.beads_to_tm, false, false⟩ 9).result.updated = []
    ∧ (SyncEngine.sync envNone [tmFix] [bdFixNewer] storeFix
        ⟨false, some SyncDirection.beads_to_tm, false, false⟩ 9).mutations = [] := by
  refine ⟨by decide, by decide, ?_, ?_⟩ <;> rfl

/-- C3 (amended): when `sync` is called with direction `beads_to_tm`, the
engine skips the entire task-processing pass — it records no created,
updated or conflict entries and issues no adapter mutation in either
direction (only auto-linking and stats still run). -/
theorem sync_beads_to_tm_skips_pass (env : SyncEnv) (tmTasks beadTasks : List UnifiedTask)
    (store : LinkStore) (opts : SyncOptions) (now : Nat)
    (hdir : opts.direction = some SyncDirection.beads_to_tm) :
    (SyncEngine.sync env tmTasks beadTasks store opts now).result.created = []
    ∧ (SyncEngine.sync env tmTasks beadTasks store opts now).result.updated = []
    ∧ (SyncEngine.sync env tmTasks beadTasks store opts now).result.conflicts = []
    ∧ (SyncEngine.sync env tmTasks beadTasks store opts now).mutations = [] := by
  unfold SyncEngine.sync
  by_cases hdry : opts.dryRun <;> simp [hdir, hdry]

/-- Witness for C3's amended theorem at a concrete input. -/
theorem sync_beads_to_tm_skips_pass_witness :
    (SyncEngine.sync envNone [tmFix] [bdFixNewer] storeFix
        ⟨false, some SyncDirection.beads_to_tm, false, false⟩ 9).result.created = []
    ∧ (SyncEngine.sync envNone [tmFix] [bdFixNewer] storeFix
        ⟨false, some SyncDirection.beads_to_tm, false, false⟩ 9).result.updated = []
    ∧ (SyncEngine.sync envNone [tmFix] [bdFixNewer] storeFix
        ⟨false, some SyncDirection.beads_to_tm, false, false⟩ 9).result.conflicts = []
    ∧ (SyncEngine.sync envNone [tmFix] [bdFixNewer] storeFix
        ⟨false, some SyncDirection.beads_to_tm, false, false⟩ 9).mutations = [] :=
  sync_beads_to_tm_skips_pass envNone [tmFix] [bdFixNewer] storeFix
    ⟨false, some SyncDirection.beads_to_tm, false, false⟩ 9 rfl

/-! ### C2 — dry-run purity -/

/-- C2: a dry-run sync issues no adapter mutation and never writes the
link store, yet returns exactly the created / updated / conflict action
descriptions that the corresponding non-dry-run pass over the same
inputs describes. -/
theorem sync_dry_run_pure (env : SyncEnv) (tmTasks beadTasks : List UnifiedTask)
    (store : LinkStore) (opts : SyncOptions) (now : Nat) :
    (SyncEngine.sync env tmTasks beadTasks store { opts with dryRun := true } now).mutations = []
    ∧ (SyncEngine.sync env tmTasks beadTasks store { opts with dryRun := true } now).saved = none
    ∧ (SyncEngine.sync env tmTasks beadTasks store { opts with dryRun := true } now).result.created
      = (SyncEngine.sync env tmTasks beadTasks store { opts with dryRun := false } now).result.created
    ∧ (SyncEngine.sync env tmTasks beadTasks store { opts with dryRun := true } now).result.updated
      = (SyncEngine.sync env tmTasks beadTasks store { opts with dryRun := false } now).result.updated
    ∧ (SyncEngine.sync env tmTasks beadTasks store { opts with dryRun := true } now).result.conflicts
      = (SyncEngine.sync env tmTasks beadTasks store { opts with dryRun := false } now).result.conflicts := by
  unfold SyncEngine.sync
  by_cases hdir : opts.direction = some SyncDirection.beads_to_tm
  · simp [hdir]
  · simp only [hdir, if_false, ite_false, if_true, ite_true]
    refine ⟨?_, ?_, ?_⟩
    · simp [SyncEngine.tmPass_mutations_dry]
    · simp
    · exact SyncEngine.tmPass_sim env env _ _ now _ _ tmTasks _ _ rfl rfl rfl

/-! ### C6 — identifier extraction order -/

/-- C6 (counterexample): on `"tm:5 (TM-7)"` the source tries the
case-insensitive `tm:<n>` prefix *before* the `(TM-<n>)`-anywhere
pattern and returns 5, while the spec's stated priority order —
`(TM-<n>)` anywhere third, `tm:<n>` prefix last — would return 7. -/
theorem extractTmId_order_cex :
    BeadsAdapter.extractTmId "tm:5 (TM-7)" = some 5
    ∧ BeadsAdapter.extractTmIdSpecOrder "tm:5 (TM-7)" = some 7
    ∧ BeadsAdapter.extractTmId "tm:5 (TM-7)"
      ≠ BeadsAdapter.extractTmIdSpecOrder "tm:5 (TM-7)" := by
  exact ⟨rfl, rfl, by decide⟩

/-- C6 (amended): identifier extraction tries the fixed conventions in
the *source's* order — `"TM-<n>:"` prefix, then `"[TM-<n>]"` prefix,
then the case-insensitive `"tm:<n>"` prefix, then `"(TM-<n>)"` anywhere
— the first matching pattern determines the result, and the result is
`none` when no pattern applies (the function is pure, so the result
depends only on the title string). -/
theorem extractTmId_first_match_order :
    (∀ t n, BeadsAdapter.patTMColon t = some n → BeadsAdapter.extractTmId t = some n)
    ∧ (∀ t n, BeadsAdapter.patTMColon t = none → BeadsAdapter.patTMBracket t = some n →
        BeadsAdapter.extractTmId t = some n)
    ∧ (∀ t n, BeadsAdapter.patTMColon t = none → BeadsAdapter.patTMBracket t = none →
        BeadsAdapter.patTmCi t = some n → BeadsAdapter.extractTmId t = some n)
    ∧ (∀ t n, BeadsAdapter.patTMColon t = none → BeadsAdapter.patTMBracket t = none →
        BeadsAdapter.patTmCi t = none → BeadsAdapter.patTMParen t = some n →
        BeadsAdapter.extractTmId t = some n)
    ∧ (∀ t, BeadsAdapter.patTMColon t = none → BeadsAdapter.patTMBracket t = none →
        BeadsAdapter.patTmCi t = none → BeadsAdapter.patTMParen t = none →
        BeadsAdapter.extractTmId t = none) := by
  refine ⟨?_, ?_, ?_, ?_, ?_⟩ <;> intros <;>
    simp_all [BeadsAdapter.extractTmId, BeadsAdapter.tmIdPatterns, BeadsAdapter.firstMatch]

/-- Witness for C6's amended theorem: the first convention matching
`"TM-85: x"` determines the extracted id. -/
theorem extractTmId_first_match_order_witness :
    BeadsAdapter.patTMColon "TM-85: x" = some 85
    ∧ BeadsAdapter.extractTmId "TM-85: x" = some 85 :=
  ⟨rfl, extractTmId_first_match_order.1 "TM-85: x" 85 rfl⟩

/-! ### C7 — manual `link` guard -/

/-- The store `link` builds in its success branch: the old links plus
one appended manual link (`autoLinked = false`), stamped by `saveLinks`. -/
def linkAppended (store : LinkStore) (tmId : Int) (beadId : String) (now : Nat) : LinkStore :=
  { store with
    links := store.links ++ [⟨some tmId, beadId, now, false⟩]
    lastSync := some now }

/-- C7: `link(tmId, beadId)` fails with no mutation and no write when
either side already appears in an existing link; otherwise it appends
exactly one new link with `autoLinked = false` and persists the store
within the same call. -/
theorem link_unique_guard (store : LinkStore) (tmId : Int) (beadId : String) (now : Nat) :
    ((∃ l ∈ store.links, l.tmId = some tmId) →
      SyncEngine.link store tmId beadId now = ⟨false, store, none⟩)
    ∧ ((∃ l ∈ store.links, l.beadId = beadId) →
      SyncEngine.link store tmId beadId now = ⟨false, store, none⟩)
    ∧ ((∀ l ∈ store.links, l.tmId ≠ some tmId) → (∀ l ∈ store.links, l.beadId ≠ beadId) →
      SyncEngine.link store tmId beadId now =
        ⟨true, linkAppended store tmId beadId now, some (linkAppended store tmId beadId now)⟩) := by
  unfold SyncEngine.link linkAppended
  refine ⟨?_, ?_, ?_⟩
  · rintro ⟨l, hl, he⟩
    have h1 : (store.links.find? fun l => l.tmId == some tmId).isSome := by
      rw [List.find?_isSome]
      exact ⟨l, hl, by simp [he]⟩
    simp [h1]
  · rintro ⟨l, hl, he⟩
    by_cases h1 : (store.links.find? fun l => l.tmId == some tmId).isSome
    · simp [h1]
    · have h2 : (store.links.find? fun l => l.beadId == beadId).isSome := by
        rw [List.find?_isSome]
        exact ⟨l, hl, by simp [he]⟩
      simp [h1, h2]
  · intro ha hb
    have h1 : (store.links.find? fun l => l.tmId == some tmId) = none := by
      rw [List.find?_eq_none]
      intro l hl
      simp [ha l hl]
    have h2 : (store.links.find? fun l => l.beadId == beadId) = none := by
      rw [List.find?_eq_none]
      intro l hl
      simp [hb l hl]
    simp [h1, h2]

/-- Witness for C7: linking an unrelated pair into `storeFix` appends it
and persists; the guard hypotheses hold concretely. -/
theorem link_unique_guard_witness :
    SyncEngine.link storeFix 2 "y" 3 =
      ⟨true, linkAppended storeFix 2 "y" 3, some (linkAppended storeFix 2 "y" 3)⟩ :=
  (link_unique_guard storeFix 2 "y" 3).2.2 (by decide) (by decide)

/-! ### Key-uniqueness invariant of the link store -/

/-- No two links share a Task-Master id and no two links share a bead id
(the 1:1 partial matching invariant). -/
def NodupKeys (links : List TaskLink) : Prop :=
  (links.map (·.tmId)).Nodup ∧ (links.map (·.beadId)).Nodup

/-- Filtering out the elements with a given key removes at most one
element of a list whose keys are pairwise distinct. -/
lemma length_filter_key_ne {α β : Type} [DecidableEq β] (f : α → β) (v : β) :
    ∀ l : List α, (l.map f).Nodup →
      l.length ≤ (l.filter fun x => ¬(f x = v)).length + 1 := by
  intro l
  induction l with
  | nil => simp
  | cons a l ih =>
    intro h
    rw [List.map_cons, List.nodup_cons] at h
    obtain ⟨ha, hl⟩ := h
    by_cases hv : f a = v
    · have hkeep : (l.filter fun x => ¬(f x = v)) = l := by
        rw [List.filter_eq_self]
        intro x hx
        simp only [decide_eq_true_eq]
        intro he
        exact ha (by rw [hv, ← he]; exact List.mem_map_of_mem f hx)
      rw [List.filter_cons_of_neg (by simp [hv]), hkeep]
      simp
    · rw [List.filter_cons_of_pos (by simp [hv])]
      have := ih hl
      simp only [List.length_cons]
      omega

/-! ### C8 — `unlink` removes at most one link -/

/-- C8: on a store satisfying the 1:1 invariant, `unlink` removes at most
one matching link, returns `false` (with the store untouched and nothing
persisted) when nothing was removed, and removes exactly one link when it
returns `true`. -/
theorem unlink_removes_at_most_one (store : LinkStore) (identifier : String) (now : Nat)
    (h : NodupKeys store.links) :
    store.links.length ≤ (SyncEngine.unlink store identifier now).store.links.length + 1
    ∧ ((SyncEngine.unlink store identifier now).ok = false →
        (SyncEngine.unlink store identifier now).store = store
        ∧ (SyncEngine.unlink store identifier now).saved = none)
    ∧ ((SyncEngine.unlink store identifier now).ok = true →
        (SyncEngine.unlink store identifier now).store.links.length + 1
          = store.links.length) := by
  unfold SyncEngine.unlink
  cases hm : SyncEngine.unlinkTmMatch identifier with
  | some n =>
    have hle : store.links.length
        ≤ (store.links.filter fun l => ¬(l.tmId = some n)).length + 1 :=
      length_filter_key_ne (fun l => l.tmId) (some n) store.links h.1
    by_cases hlt : (store.links.filter fun l => ¬(l.tmId = some n)).length
        < store.links.length
    · simp only [hlt, if_pos]
      refine ⟨by simpa using hle, by simp, by intro _; omega⟩
    · simp only [hlt, if_neg, not_false_eq_true]
      exact ⟨by simp, by simp, by simp⟩
  | none =>
    have hle : store.links.length
        ≤ (store.links.filter fun l => ¬(l.beadId = identifier)).length + 1 :=
      length_filter_key_ne (fun l => l.beadId) identifier store.links h.2
    by_cases hlt : (store.links.filter fun l => ¬(l.beadId = identifier)).length
        < store.links.length
    · simp only [hlt, if_pos]
      refine ⟨by simpa using hle, by simp, by intro _; omega⟩
    · simp only [hlt, if_neg, not_false_eq_true]
      exact ⟨by simp, by simp, by simp⟩

/-- Witness for C8 at a concrete store and identifier. -/
theorem unlink_removes_at_most_one_witness :
    storeFix.links.length ≤ (SyncEngine.unlink storeFix "1" 3).store.links.length + 1
    ∧ ((SyncEngine.unlink storeFix "1" 3).ok = false →
        (SyncEngine.unlink storeFix "1" 3).store = storeFix
        ∧ (SyncEngine.unlink storeFix "1" 3).saved = none)
    ∧ ((SyncEngine.unlink storeFix "1" 3).ok = true →
        (SyncEngine.unlink storeFix "1" 3).store.links.length + 1
          = storeFix.links.length) :=
  unlink_removes_at_most_one storeFix "1" 3 ⟨by decide, by decide⟩

/-! ### C9 — priority normalization bounds -/

/-- A concrete in-range bead issue. -/
def bdIssueFix : BeadsAdapter.BeadIssue :=
  ⟨"x", "work", "task", "open", 3, 0, none, none, none, none⟩

/-- C9: the Beads adapter copies the native priority through, so its
unified priority is in 0-4 whenever the native issue's documented 0-4
range holds; the Task-Master adapter always maps into {1,2,3}, with an
absent or unrecognized native priority mapping to 2. -/
theorem priority_range_normalization :
    (∀ issue : BeadsAdapter.BeadIssue, issue.priority ≤ 4 →
      (BeadsAdapter.toUnified issue).priority ≤ 4)
    ∧ (∀ task : TaskMasterAdapter.TaskMasterTask,
        (TaskMasterAdapter.toUnified task).priority = 1
        ∨ (TaskMasterAdapter.toUnified task).priority = 2
        ∨ (TaskMasterAdapter.toUnified task).priority = 3)
    ∧ TaskMasterAdapter.normalizePriority none = 2
    ∧ (∀ s : String, s ≠ "high" → s ≠ "medium" → s ≠ "low" →
        TaskMasterAdapter.normalizePriority (some s) = 2) := by
  refine ⟨fun i h => h, ?_, rfl, ?_⟩
  · intro t
    unfold TaskMasterAdapter.toUnified TaskMasterAdapter.normalizePriority
      TaskMasterAdapter.priorityMap
    cases t.priority with
    | none => simp
    | some s =>
      by_cases h0 : s = ""
      · simp [h0]
      · simp only [h0, ne_eq, not_false_eq_true, if_true, ite_true]
        split_ifs <;> simp
  · intro s h1 h2 h3
    unfold TaskMasterAdapter.normalizePriority TaskMasterAdapter.priorityMap
    by_cases h0 : s = "" <;> simp [h0, h1, h2, h3]

/-- Witness for C9 at concrete inputs. -/
theorem priority_range_normalization_witness :
    bdIssueFix.priority ≤ 4
    ∧ (BeadsAdapter.toUnified bdIssueFix).priority ≤ 4
    ∧ TaskMasterAdapter.normalizePriority (some "weird") = 2 :=
  ⟨by decide, priority_range_normalization.1 bdIssueFix (by decide),
    priority_range_normalization.2.2.2 "weird" (by decide) (by decide) (by decide)⟩

/-! ### C5 infrastructure — JS map lemmas and adapter well-formedness -/

lemma mHas_mSet {α β : Type} [BEq α] (m : JsMap α β) (k k' : α) (v : β) :
    mHas (mSet m k v) k' = ((k == k') || mHas m k') := by
  unfold mHas mGet mSet
  rw [List.find?_cons]
  cases h : k == k' <;> simp [h]

lemma mHas_mOfList_pairs {α β : Type} [BEq α] [LawfulBEq α] (l : List (α × β)) (k : α) :
    mHas (mOfList l) k = true ↔ ∃ p ∈ l, p.1 = k := by
  unfold mHas mGet mOfList
  have hmap : ∀ o : Option (α × β), (Option.map (fun p => p.2) o).isSome = o.isSome := by
    intro o; cases o <;> rfl
  rw [hmap, List.find?_isSome]
  constructor
  · rintro ⟨p, hp, he⟩
    exact ⟨p, List.mem_reverse.mp hp, by simpa using he⟩
  · rintro ⟨p, hp, he⟩
    exact ⟨p, List.mem_reverse.mpr hp, by simpa using he⟩

/-- The parsed Task-Master id of each task carrying a `taskmaster`
source, in task order — the ids the Task-Master pass looks up and links
by. -/
def parsedTmIds (tasks : List UnifiedTask) : List (Option Int) :=
  tasks.filterMap fun t =>
    (t.sources.find? fun s => s.system == SystemTag.taskmaster).map fun s => jsParseInt s.id

/-- The native bead id of each task carrying a `beads` source — the ids
the auto-link pass may record as link targets. -/
def beadSourceIds (tasks : List UnifiedTask) : List String :=
  tasks.filterMap fun t =>
    (t.sources.find? fun s => s.system == SystemTag.beads).map fun s => s.id

/-- Two successful `bd create` calls for different Task-Master ids
return different bead ids (the real CLI mints a fresh id per issue). -/
def EnvInj (env : SyncEnv) : Prop :=
  ∀ t1 p1 i1 t2 p2 i2 b, env.createIssue t1 p1 i1 = some b →
    env.createIssue t2 p2 i2 = some b → i1 = i2

/-- A successful `bd create` call returns a bead id that is neither
already recorded in the link store nor the id of an existing bead. -/
def EnvFresh (env : SyncEnv) (store : LinkStore) (beadTasks : List UnifiedTask) : Prop :=
  ∀ t p i b, env.createIssue t p i = some b →
    b ∉ store.links.map (·.beadId) ∧ b ∉ beadSourceIds beadTasks

lemma filterMap_sublist {α β : Type} (f g : α → Option β)
    (h : ∀ x v, g x = some v → f x = some v) :
    ∀ l : List α, (l.filterMap g).Sublist (l.filterMap f) := by
  intro l
  induction l with
  | nil => simp
  | cons a l ih =>
    rw [List.filterMap_cons, List.filterMap_cons]
    cases hg : g a with
    | none =>
      cases hf : f a with
      | none => exact ih
      | some v => exact ih.trans (List.sublist_cons_self v _)
    | some v => rw [h a v hg]; exact ih.cons₂ v

lemma nodup_map_of_rel {α β γ : Type} (f : α → β) (g : α → γ) (l : List α)
    (h : (l.map g).Nodup) (hfg : ∀ x ∈ l, ∀ y ∈ l, f x = f y → g x = g y) :
    (l.map f).Nodup := by
  induction l with
  | nil => simp
  | cons a l ih =>
    rw [List.map_cons, List.nodup_cons] at h ⊢
    obtain ⟨ha, hl⟩ := h
    refine ⟨?_, ih hl fun x hx y hy => hfg x (by simp [hx]) y (by simp [hy])⟩
    intro hmem
    obtain ⟨x, hx, he⟩ := List.mem_map.mp hmem
    exact ha (List.mem_map.mpr ⟨x, hx, hfg x (by simp [hx]) a (by simp) he⟩)

/-- The links the Task-Master pass appends: one per task that has a
`taskmaster` source, is not linked in `linkByTmId`, and whose (non
dry-run) `bd create` call succeeds. -/
def passCreatedLinks (env : SyncEnv) (opts : SyncOptions) (now : Nat)
    (mapTm : JsMap (Option Int) TaskLink) (tasks : List UnifiedTask) : List TaskLink :=
  tasks.filterMap fun t =>
    match t.sources.find? (fun s => s.system == SystemTag.taskmaster) with
    | none => none
    | some src =>
      match mGet mapTm (jsParseInt src.id) with
      | some _ => none
      | none =>
        if opts.dryRun then none
        else
          (env.createIssue ("TM-" ++ jsNumStr (jsParseInt src.id) ++ ": " ++ t.title)
            t.priority (jsParseInt src.id)).map
            fun b => ⟨jsParseInt src.id, b, now, false⟩

lemma tmPassStep_links (env : SyncEnv) (opts : SyncOptions) (now : Nat)
    (bById : JsMap String UnifiedTask) (mapTm : JsMap (Option Int) TaskLink)
    (st : SyncEngine.TmPassState) (t : UnifiedTask) :
    (SyncEngine.tmPassStep env opts now bById mapTm st t).links
      = st.links ++ passCreatedLinks env opts now mapTm [t] := by
  unfold SyncEngine.tmPassStep passCreatedLinks
  cases hfind : t.sources.find? (fun s => s.system == SystemTag.taskmaster) with
  | none => simp [hfind]
  | some src =>
    simp only [hfind, List.filterMap_cons, List.filterMap_nil]
    cases hget : mGet mapTm (jsParseInt src.id) with
    | some lnk =>
      simp only [hget]
      cases hbead : mGet bById ("bead:" ++ lnk.beadId) with
      | none => simp
      | some bt =>
        by_cases hst : t.status = bt.status
        · simp [hst]
        · by_cases hgt : t.updatedAt.getD 0 > bt.updatedAt.getD 0
          · simp [hst, hgt]
          · by_cases hlt : bt.updatedAt.getD 0 > t.updatedAt.getD 0 <;> simp [hst, hgt, hlt]
    | none =>
      simp only [hget]
      by_cases hdry : opts.dryRun
      · simp [hdry]
      · simp only [hdry, Bool.false_eq_true, if_false, ite_false,
          Bool.not_eq_true]
        cases hres : env.createIssue ("TM-" ++ jsNumStr (jsParseInt src.id) ++ ": " ++ t.title)
            t.priority (jsParseInt src.id) with
        | none => simp [hdry, hres]
        | some b => simp [hdry, hres]

lemma tmPass_links (env : SyncEnv) (opts : SyncOptions) (now : Nat)
    (bById : JsMap String UnifiedTask) (mapTm : JsMap (Option Int) TaskLink) :
    ∀ (ts : List UnifiedTask) (st : SyncEngine.TmPassState),
      (ts.foldl (SyncEngine.tmPassStep env opts now bById mapTm) st).links
        = st.links ++ passCreatedLinks env opts now mapTm ts := by
  intro ts
  induction ts with
  | nil => intro st; simp [passCreatedLinks]
  | cons t ts ih =>
    intro st
    rw [List.foldl_cons, ih, tmPassStep_links]
    unfold passCreatedLinks
    rw [List.filterMap_cons]
    cases hd : (match t.sources.find? (fun s => s.system == SystemTag.taskmaster) with
      | none => none
      | some src =>
        match mGet mapTm (jsParseInt src.id) with
        | some _ => none
        | none =>
          if opts.dryRun then none
          else
            (env.createIssue ("TM-" ++ jsNumStr (jsParseInt src.id) ++ ": " ++ t.title)
              t.priority (jsParseInt src.id)).map
              fun b => (⟨jsParseInt src.id, b, now, false⟩ : TaskLink)) with
    | none => simp [hd, List.filterMap_cons, List.filterMap_nil]
    | some lk => simp [hd, List.filterMap_cons, List.filterMap_nil]

/-- Every link the Task-Master pass appends was unlinked in `linkByTmId`
and carries the bead id of a successful `createIssue` call made with the
same Task-Master id. -/
lemma passCreatedLinks_spec (env : SyncEnv) (opts : SyncOptions) (now : Nat)
    (mapTm : JsMap (Option Int) TaskLink) (ts : List UnifiedTask) :
    ∀ lk ∈ passCreatedLinks env opts now mapTm ts,
      mGet mapTm lk.tmId = none
      ∧ ∃ title prio, env.createIssue title prio lk.tmId = some lk.beadId := by
  intro lk hlk
  obtain ⟨t, -, hf⟩ := List.mem_filterMap.mp hlk
  cases hfind : t.sources.find? (fun s => s.system == SystemTag.taskmaster) with
  | none => simp [hfind] at hf
  | some src =>
    simp only [hfind] at hf
    cases hget : mGet mapTm (jsParseInt src.id) with
    | some lnk => simp [hget] at hf
    | none =>
      simp only [hget] at hf
      by_cases hdry : opts.dryRun
      · simp [hdry] at hf
      · simp only [hdry, Bool.false_eq_true, if_false, ite_false] at hf
        cases hres : env.createIssue
            ("TM-" ++ jsNumStr (jsParseInt src.id) ++ ": " ++ t.title)
            t.priority (jsParseInt src.id) with
        | none => simp [hres] at hf
        | some b =>
          rw [hres, Option.map_some'] at hf
          cases hf
          exact ⟨hget, _, _, hres⟩

/-- The Task-Master ids of the pass-created links, as a sublist of the
parsed ids of the input tasks (hence nodup whenever those are). -/
lemma passCreatedLinks_tmIds_sublist (env : SyncEnv) (opts : SyncOptions) (now : Nat)
    (mapTm : JsMap (Option Int) TaskLink) (ts : List UnifiedTask) :
    ((passCreatedLinks env opts now mapTm ts).map (·.tmId)).Sublist (parsedTmIds ts) := by
  unfold passCreatedLinks parsedTmIds
  rw [List.map_filterMap]
  apply filterMap_sublist
  intro t v hv
  cases hfind : t.sources.find? (fun s => s.system == SystemTag.taskmaster) with
  | none => simp [hfind] at hv
  | some src =>
    simp only [hfind] at hv ⊢
    cases hget : mGet mapTm (jsParseInt src.id) with
    | some lnk => simp [hget] at hv
    | none =>
      simp only [hget] at hv
      by_cases hdry : opts.dryRun
      · simp [hdry] at hv
      · simp only [hdry, Bool.false_eq_true, if_false, ite_false] at hv
        cases hres : env.createIssue
            ("TM-" ++ jsNumStr (jsParseInt src.id) ++ ": " ++ t.title)
            t.priority (jsParseInt src.id) with
        | none => simp [hres] at hv
        | some b =>
          rw [hres, Option.map_some', Option.map_some'] at hv
          cases hv
          rfl

/-- One auto-link iteration preserves key-uniqueness, keeps both lookup
maps covering the links array, and only records bead ids from `S`. -/
lemma autoLinkStep_inv (now : Nat) (S : List String) (st : SyncEngine.ALState) (t : UnifiedTask)
    (hS : ∀ s, t.sources.find? (fun x => x.system == SystemTag.beads) = some s → s.id ∈ S)
    (h1 : NodupKeys st.links)
    (h2 : ∀ l ∈ st.links, mHas st.mapTm l.tmId = true)
    (h3 : ∀ l ∈ st.links, mHas st.mapBead l.beadId = true)
    (h4 : ∀ l ∈ st.links, l.beadId ∈ S) :
    NodupKeys (SyncEngine.autoLinkStep now st t).links
    ∧ (∀ l ∈ (SyncEngine.autoLinkStep now st t).links,
        mHas (SyncEngine.autoLinkStep now st t).mapTm l.tmId = true)
    ∧ (∀ l ∈ (SyncEngine.autoLinkStep now st t).links,
        mHas (SyncEngine.autoLinkStep now st t).mapBead l.beadId = true)
    ∧ (∀ l ∈ (SyncEngine.autoLinkStep now st t).links, l.beadId ∈ S) := by
  unfold SyncEngine.autoLinkStep
  cases hfind : t.sources.find? (fun s => s.system == SystemTag.beads) with
  | none => exact ⟨h1, h2, h3, h4⟩
  | some bsrc =>
    simp only
    cases hx : BeadsAdapter.extractTmId t.title with
    | none => exact ⟨h1, h2, h3, h4⟩
    | some n =>
      simp only
      by_cases hc : n ≠ 0 ∧ mHas st.mapTm (some n) = false ∧ mHas st.mapBead bsrc.id = false
      · rw [if_pos hc]
        obtain ⟨-, hc2, hc3⟩ := hc
        refine ⟨⟨?_, ?_⟩, ?_, ?_, ?_⟩
        · rw [List.map_append, List.nodup_append]
          refine ⟨h1.1, by simp, ?_⟩
          intro a ha hb
          simp only [List.map_cons, List.map_nil, List.mem_singleton] at hb
          subst hb
          obtain ⟨l, hl, he⟩ := List.mem_map.mp ha
          have hh := h2 l hl
          rw [he, hc2] at hh
          exact Bool.noConfusion hh
        · rw [List.map_append, List.nodup_append]
          refine ⟨h1.2, by simp, ?_⟩
          intro a ha hb
          simp only [List.map_cons, List.map_nil, List.mem_singleton] at hb
          subst hb
          obtain ⟨l, hl, he⟩ := List.mem_map.mp ha
          have hh := h3 l hl
          rw [he, hc3] at hh
          exact Bool.noConfusion hh
        · intro l hl
          rcases List.mem_append.mp hl with hl | hl
          · rw [mHas_mSet]
            simp [h2 l hl]
          · simp only [List.mem_singleton] at hl
            subst hl
            rw [mHas_mSet]
            simp
        · intro l hl
          rcases List.mem_append.mp hl with hl | hl
          · rw [mHas_mSet]
            simp [h3 l hl]
          · simp only [List.mem_singleton] at hl
            subst hl
            rw [mHas_mSet]
            simp
        · intro l hl
          rcases List.mem_append.mp hl with hl | hl
          · exact h4 l hl
          · simp only [List.mem_singleton] at hl
            subst hl
            exact hS bsrc hfind
      · rw [if_neg hc]
        exact ⟨h1, h2, h3, h4⟩

/-- The invariant of `autoLinkStep_inv`, folded over a task list. -/
lemma autoLink_fold_inv (now : Nat) (S : List String) :
    ∀ (ts : List UnifiedTask) (st : SyncEngine.ALState),
      (∀ t ∈ ts, ∀ s, t.sources.find? (fun x => x.system == SystemTag.beads) = some s → s.id ∈ S) →
      NodupKeys st.links →
      (∀ l ∈ st.links, mHas st.mapTm l.tmId = true) →
      (∀ l ∈ st.links, mHas st.mapBead l.beadId = true) →
      (∀ l ∈ st.links, l.beadId ∈ S) →
      NodupKeys (ts.foldl (SyncEngine.autoLinkStep now) st).links
      ∧ (∀ l ∈ (ts.foldl (SyncEngine.autoLinkStep now) st).links,
          mHas (ts.foldl (SyncEngine.autoLinkStep now) st).mapTm l.tmId = true)
      ∧ (∀ l ∈ (ts.foldl (SyncEngine.autoLinkStep now) st).links, l.beadId ∈ S) := by
  intro ts
  induction ts with
  | nil => exact fun st _ h1 h2 _ h4 => ⟨h1, h2, h4⟩
  | cons t ts ih =>
    intro st hS h1 h2 h3 h4
    rw [List.foldl_cons]
    obtain ⟨g1, g2, g3, g4⟩ :=
      autoLinkStep_inv now S st t (hS t (List.mem_cons_self t ts)) h1 h2 h3 h4
    exact ih _ (fun t' ht' => hS t' (List.mem_cons_of_mem t ht')) g1 g2 g3 g4

/-- Pass `autoLinkPass` starting from a key-unique store yields key-unique
links, a `linkByTmId` map covering every link, and bead ids drawn from
the stored links or the bead snapshot. -/
lemma autoLinkPass_inv (now : Nat) (store0 : LinkStore) (beadTasks : List UnifiedTask)
    (h : NodupKeys store0.links) :
    NodupKeys (SyncEngine.autoLinkPass now store0 beadTasks).links
    ∧ (∀ l ∈ (SyncEngine.autoLinkPass now store0 beadTasks).links,
        mHas (SyncEngine.autoLinkPass now store0 beadTasks).mapTm l.tmId = true)
    ∧ (∀ l ∈ (SyncEngine.autoLinkPass now store0 beadTasks).links,
        l.beadId ∈ store0.links.map (·.beadId) ++ beadSourceIds beadTasks) := by
  unfold SyncEngine.autoLinkPass
  apply autoLink_fold_inv now (store0.links.map (·.beadId) ++ beadSourceIds beadTasks) beadTasks
  · intro t ht s hfind
    refine List.mem_append_right _ ?_
    exact List.mem_filterMap.mpr ⟨t, ht, by rw [hfind]; rfl⟩
  · exact h
  · intro l hl
    rw [mHas_mOfList_pairs]
    exact ⟨(l.tmId, l), List.mem_map_of_mem _ hl, rfl⟩
  · intro l hl
    rw [mHas_mOfList_pairs]
    exact ⟨(l.beadId, l), List.mem_map_of_mem _ hl, rfl⟩
  · intro l hl
    exact List.mem_append_left _ (List.mem_map_of_mem _ hl)

/-- The links of the store `sync` ends with: the auto-link result, plus —
unless the pass was direction-skipped — the pass-created links. -/
lemma sync_store_links (env : SyncEnv) (tmTasks beadTasks : List UnifiedTask)
    (store : LinkStore) (opts : SyncOptions) (now : Nat) :
    (SyncEngine.sync env tmTasks beadTasks store opts now).store.links
      = if opts.direction = some SyncDirection.beads_to_tm
        then (SyncEngine.autoLinkPass now store beadTasks).links
        else (SyncEngine.autoLinkPass now store beadTasks).links
          ++ passCreatedLinks env opts now
              (SyncEngine.autoLinkPass now store beadTasks).mapTm tmTasks := by
  unfold SyncEngine.sync
  by_cases hdir : opts.direction = some SyncDirection.beads_to_tm <;>
    by_cases hdry : opts.dryRun <;>
      simp [hdir, hdry, tmPass_links]

/-- Engine `sync` either writes nothing or writes exactly its final store. -/
lemma sync_saved_cases (env : SyncEnv) (tmTasks beadTasks : List UnifiedTask)
    (store : LinkStore) (opts : SyncOptions) (now : Nat) :
    (SyncEngine.sync env tmTasks beadTasks store opts now).saved = none
    ∨ (SyncEngine.sync env tmTasks beadTasks store opts now).saved
      = some (SyncEngine.sync env tmTasks beadTasks store opts now).store := by
  unfold SyncEngine.sync
  by_cases hdry : opts.dryRun <;> simp [hdry]

/-- A sync pass over well-formed inputs preserves key-uniqueness of the
link store. -/
lemma sync_preserves_nodup (env : SyncEnv) (tmTasks beadTasks : List UnifiedTask)
    (store : LinkStore) (opts : SyncOptions) (now : Nat)
    (h : NodupKeys store.links) (hids : (parsedTmIds tmTasks).Nodup)
    (hinj : EnvInj env) (hfresh : EnvFresh env store beadTasks) :
    NodupKeys (SyncEngine.sync env tmTasks beadTasks store opts now).store.links := by
  rw [sync_store_links]
  obtain ⟨hN1, hTm1, hS1⟩ := autoLinkPass_inv now store beadTasks h
  by_cases hdir : opts.direction = some SyncDirection.beads_to_tm
  · rw [if_pos hdir]; exact hN1
  rw [if_neg hdir]
  have hspec := passCreatedLinks_spec env opts now
    (SyncEngine.autoLinkPass now store beadTasks).mapTm tmTasks
  have hcreatedTm : ((passCreatedLinks env opts now
      (SyncEngine.autoLinkPass now store beadTasks).mapTm tmTasks).map (·.tmId)).Nodup :=
    (passCreatedLinks_tmIds_sublist env opts now _ tmTasks).nodup hids
  constructor
  · rw [List.map_append, List.nodup_append]
    refine ⟨hN1.1, hcreatedTm, ?_⟩
    intro a ha hb
    obtain ⟨l, hl, he⟩ := List.mem_map.mp ha
    obtain ⟨lk, hlk, he'⟩ := List.mem_map.mp hb
    obtain ⟨hnone, -⟩ := hspec lk hlk
    have hh := hTm1 l hl
    rw [he, ← he'] at hh
    unfold mHas at hh
    rw [hnone] at hh
    exact Bool.noConfusion hh
  · rw [List.map_append, List.nodup_append]
    refine ⟨hN1.2, ?_, ?_⟩
    · refine nodup_map_of_rel (fun l : TaskLink => l.beadId) (fun l : TaskLink => l.tmId)
        _ hcreatedTm ?_
      intro x hx y hy he
      obtain ⟨-, tx, px, hxc⟩ := hspec x hx
      obtain ⟨-, ty, py, hyc⟩ := hspec y hy
      have he' : x.beadId = y.beadId := he
      rw [he'] at hxc
      exact hinj _ _ _ _ _ _ _ hxc hyc
    · intro a ha hb
      obtain ⟨l, hl, he⟩ := List.mem_map.mp ha
      obtain ⟨lk, hlk, he'⟩ := List.mem_map.mp hb
      obtain ⟨-, tt, pp, hc⟩ := hspec lk hlk
      obtain ⟨hf1, hf2⟩ := hfresh tt pp lk.tmId lk.beadId hc
      have hmem := hS1 l hl
      rw [he, ← he'] at hmem
      rcases List.mem_append.mp hmem with hm | hm
      · exact hf1 hm
      · exact hf2 hm

/-- A manual `link` call preserves key-uniqueness of the persisted store. -/
lemma link_preserves_nodup (store : LinkStore) (tmId : Int) (beadId : String) (now : Nat)
    (h : NodupKeys store.links) :
    NodupKeys (((SyncEngine.link store tmId beadId now).saved).getD store).links := by
  unfold SyncEngine.link
  by_cases h1 : (store.links.find? fun l => l.tmId == some tmId).isSome
  · simp only [h1, if_pos, if_true, ite_true]
    exact h
  by_cases h2 : (store.links.find? fun l => l.beadId == beadId).isSome
  · simp only [h1, h2, Bool.false_eq_true, if_false, ite_false, if_true, ite_true]
    exact h
  simp only [h1, h2, Bool.false_eq_true, if_false, ite_false, Option.getD_some]
  rw [Option.not_isSome_iff_eq_none, List.find?_eq_none] at h1 h2
  constructor
  · rw [List.map_append, List.nodup_append]
    refine ⟨h.1, by simp, ?_⟩
    intro a ha hb
    simp only [List.map_cons, List.map_nil, List.mem_singleton] at hb
    subst hb
    obtain ⟨l, hl, he⟩ := List.mem_map.mp ha
    have he' : l.tmId = some tmId := he
    exact h1 l hl (by rw [he']; simp)
  · rw [List.map_append, List.nodup_append]
    refine ⟨h.2, by simp, ?_⟩
    intro a ha hb
    simp only [List.map_cons, List.map_nil, List.mem_singleton] at hb
    subst hb
    obtain ⟨l, hl, he⟩ := List.mem_map.mp ha
    have he' : l.beadId = a := he
    exact h2 l hl (by rw [he']; simp)

/-- An `unlink` call preserves key-uniqueness of the persisted store. -/
lemma unlink_preserves_nodup (store : LinkStore) (identifier : String) (now : Nat)
    (h : NodupKeys store.links) :
    NodupKeys (((SyncEngine.unlink store identifier now).saved).getD store).links := by
  unfold SyncEngine.unlink
  cases hm : SyncEngine.unlinkTmMatch identifier with
  | some n =>
    by_cases hlt : (store.links.filter fun l => ¬(l.tmId = some n)).length < store.links.length
    · simp only [hlt, if_pos, if_true, ite_true, Option.getD_some]
      exact ⟨((List.filter_sublist _).map _).nodup h.1,
        ((List.filter_sublist _).map _).nodup h.2⟩
    · simp only [hlt, if_neg, not_false_eq_true, ite_false]
      exact h
  | none =>
    by_cases hlt : (store.links.filter fun l => ¬(l.beadId = identifier)).length < store.links.length
    · simp only [hlt, if_pos, if_true, ite_true, Option.getD_some]
      exact ⟨((List.filter_sublist _).map _).nodup h.1,
        ((List.filter_sublist _).map _).nodup h.2⟩
    · simp only [hlt, if_neg, not_false_eq_true, ite_false]
      exact h

/-! ### C5 — operation sequences and the 1:1 invariant -/

/-- One engine operation: a sync pass (with its adapter environment and
task snapshots), a manual link, or an unlink. -/
inductive EngineOp where
  | syncOp (env : SyncEnv) (tmTasks beadTasks : List UnifiedTask) (opts : SyncOptions) (now : Nat)
  | linkOp (tmId : Int) (beadId : String) (now : Nat)
  | unlinkOp (identifier : String) (now : Nat)

/-- The persisted link store after one operation: each engine method
re-reads the store, and only what it saves survives to the next call. -/
def applyOp (store : LinkStore) : EngineOp → LinkStore
  | .syncOp env tmTasks beadTasks opts now =>
    ((SyncEngine.sync env tmTasks beadTasks store opts now).saved).getD store
  | .linkOp tmId beadId now =>
    ((SyncEngine.link store tmId beadId now).saved).getD store
  | .unlinkOp identifier now =>
    ((SyncEngine.unlink store identifier now).saved).getD store

/-- The persisted link store after a sequence of operations. -/
def applyOps (store : LinkStore) (ops : List EngineOp) : LinkStore :=
  ops.foldl applyOp store

/-- Adapter well-formedness of one operation against the current store:
a sync pass needs distinct Task-Master ids in its snapshot and a
fresh-id-minting, per-id-deterministic `bd create`; manual operations
need nothing. -/
def GoodOp (store : LinkStore) : EngineOp → Prop
  | .syncOp env tmTasks beadTasks _ _ =>
    (parsedTmIds tmTasks).Nodup ∧ EnvInj env ∧ EnvFresh env store beadTasks
  | .linkOp _ _ _ => True
  | .unlinkOp _ _ => True

/-- Every operation of the sequence is well-formed against the store it
actually runs on. -/
def GoodSeq : LinkStore → List EngineOp → Prop
  | _, [] => True
  | store, op :: ops => GoodOp store op ∧ GoodSeq (applyOp store op) ops

lemma applyOp_preserves_nodup (store : LinkStore) (op : EngineOp)
    (h : NodupKeys store.links) (hg : GoodOp store op) :
    NodupKeys (applyOp store op).links := by
  cases op with
  | syncOp env tmTasks beadTasks opts now =>
    obtain ⟨h1, h2, h3⟩ := hg
    show NodupKeys (((SyncEngine.sync env tmTasks beadTasks store opts now).saved).getD store).links
    rcases sync_saved_cases env tmTasks beadTasks store opts now with hs | hs
    · rw [hs]; exact h
    · rw [hs, Option.getD_some]
      exact sync_preserves_nodup env tmTasks beadTasks store opts now h h1 h2 h3
  | linkOp tmId beadId now => exact link_preserves_nodup store tmId beadId now h
  | unlinkOp identifier now => exact unlink_preserves_nodup store identifier now h

lemma applyOps_preserves_nodup :
    ∀ (ops : List EngineOp) (store : LinkStore),
      NodupKeys store.links → GoodSeq store ops →
      NodupKeys (applyOps store ops).links := by
  intro ops
  induction ops with
  | nil => exact fun store h _ => h
  | cons op ops ih =>
    intro store h hg
    exact ih _ (applyOp_preserves_nodup store op h hg.1) hg.2

/-- C5: after any well-formed sequence of `sync`, `link` and `unlink`
calls starting from the empty link store, no two links share a
Task-Master id and no two links share a bead id — the store is always a
1:1 partial matching. -/
theorem engine_links_one_to_one (ops : List EngineOp)
    (hg : GoodSeq emptyLinkStore ops) :
    NodupKeys (applyOps emptyLinkStore ops).links :=
  applyOps_preserves_nodup ops emptyLinkStore ⟨List.nodup_nil, List.nodup_nil⟩ hg

/-- A concrete operation sequence: a manual link, an unlink, a sync. -/
def opsFix : List EngineOp :=
  [EngineOp.linkOp 1 "a" 5, EngineOp.unlinkOp "tm-1" 6,
    EngineOp.syncOp envNone [tmFix] [bdFix] {} 7]

/-- Witness for C5 at a concrete well-formed operation sequence. -/
theorem engine_links_one_to_one_witness :
    NodupKeys (applyOps emptyLinkStore opsFix).links :=
  engine_links_one_to_one opsFix
    ⟨trivial, trivial,
      ⟨by decide, fun _ _ _ _ _ _ _ hx _ => Option.noConfusion hx,
        fun _ _ _ _ hx => Option.noConfusion hx⟩,
      trivial⟩

/-! ### C1 — the tie-break rule, exactly -/

/-- C1: for a linked Task-Master/bead pair with differing statuses, a
(non-dry-run, not direction-restricted-to-`beads_to_tm`) sync propagates
the status of the side whose `updatedAt` is strictly greater (an absent
`updatedAt` compares as 0 / epoch), recording exactly one `updated`
action and the corresponding adapter mutation; when the two `updatedAt`
values are equal — including both absent — it records exactly one
conflict and performs no mutation on either store. -/
theorem sync_tie_break_exact (env : SyncEnv) (opts : SyncOptions) (now v : Nat)
    (ls : Option Nat) (lk : TaskLink) (tmTask beadTask : UnifiedTask) (srcId : String)
    (hdir : opts.direction ≠ some SyncDirection.beads_to_tm)
    (hdry : opts.dryRun = false)
    (hsrc : tmTask.sources = [⟨SystemTag.taskmaster, srcId⟩])
    (hparse : jsParseInt srcId = lk.tmId)
    (hbsrc : beadTask.sources = [⟨SystemTag.beads, lk.beadId⟩])
    (hbid : beadTask.id = "bead:" ++ lk.beadId)
    (hst : tmTask.status ≠ beadTask.status) :
    (tmTask.updatedAt.getD 0 > beadTask.updatedAt.getD 0 →
      (SyncEngine.sync env [tmTask] [beadTask] ⟨v, [lk], ls⟩ opts now).result.updated
        = [⟨tmTask, ActionDirection.tm_to_beads,
            "Status: " ++ statusStr beadTask.status ++ " → " ++ statusStr tmTask.status⟩]
      ∧ (SyncEngine.sync env [tmTask] [beadTask] ⟨v, [lk], ls⟩ opts now).result.conflicts = []
      ∧ (SyncEngine.sync env [tmTask] [beadTask] ⟨v, [lk], ls⟩ opts now).result.created = []
      ∧ (SyncEngine.sync env [tmTask] [beadTask] ⟨v, [lk], ls⟩ opts now).mutations
        = [Mutation.beadsUpdateStatus lk.beadId tmTask.status])
    ∧ (beadTask.updatedAt.getD 0 > tmTask.updatedAt.getD 0 →
      (SyncEngine.sync env [tmTask] [beadTask] ⟨v, [lk], ls⟩ opts now).result.updated
        = [⟨beadTask, ActionDirection.beads_to_tm,
            "Status: " ++ statusStr tmTask.status ++ " → " ++ statusStr beadTask.status⟩]
      ∧ (SyncEngine.sync env [tmTask] [beadTask] ⟨v, [lk], ls⟩ opts now).result.conflicts = []
      ∧ (SyncEngine.sync env [tmTask] [beadTask] ⟨v, [lk], ls⟩ opts now).result.created = []
      ∧ (SyncEngine.sync env [tmTask] [beadTask] ⟨v, [lk], ls⟩ opts now).mutations
        = [Mutation.tmUpdateStatus lk.tmId beadTask.status])
    ∧ (tmTask.updatedAt.getD 0 = beadTask.updatedAt.getD 0 →
      (SyncEngine.sync env [tmTask] [beadTask] ⟨v, [lk], ls⟩ opts now).result.conflicts
        = [⟨tmTask, tmTask.status, beadTask.status, "status"⟩]
      ∧ (SyncEngine.sync env [tmTask] [beadTask] ⟨v, [lk], ls⟩ opts now).result.updated = []
      ∧ (SyncEngine.sync env [tmTask] [beadTask] ⟨v, [lk], ls⟩ opts now).result.created = []
      ∧ (SyncEngine.sync env [tmTask] [beadTask] ⟨v, [lk], ls⟩ opts now).mutations = []) := by
  have hfindBead : List.find? (fun s => s.system == SystemTag.beads) beadTask.sources
      = some ⟨SystemTag.beads, lk.beadId⟩ := by
    rw [hbsrc]; rfl
  have hfindTm : List.find? (fun s => s.system == SystemTag.taskmaster) tmTask.sources
      = some ⟨SystemTag.taskmaster, srcId⟩ := by
    rw [hsrc]; rfl
  -- the auto-link pass leaves everything unchanged: the bead side is
  -- already present in `linkByBeadId`
  have hal : SyncEngine.autoLinkPass now ⟨v, [lk], ls⟩ [beadTask]
      = ⟨[lk], mOfList ([lk].map fun l => (l.tmId, l)),
          mOfList ([lk].map fun l => (l.beadId, l))⟩ := by
    unfold SyncEngine.autoLinkPass
    simp only [List.foldl_cons, List.foldl_nil, SyncEngine.autoLinkStep, hfindBead]
    cases hx : BeadsAdapter.extractTmId beadTask.title with
    | none => rfl
    | some n =>
      dsimp only
      rw [if_neg]
      rintro ⟨-, -, h3⟩
      simp [mHas, mGet, mOfList] at h3
  have hgetTm : mGet (mOfList ([lk].map fun l => (l.tmId, l))) lk.tmId = some lk := by
    simp [mGet, mOfList]
  have hgetBead : mGet (mOfList ([beadTask].map fun t => (t.id, t))) ("bead:" ++ lk.beadId)
      = some beadTask := by
    simp [mGet, mOfList, hbid]
  unfold SyncEngine.sync
  simp only [List.length_cons, List.length_nil, hal, if_neg hdir, List.foldl_cons,
    List.foldl_nil, hdry, Bool.false_eq_true, if_false, ite_false]
  unfold SyncEngine.tmPassStep
  simp only [hfindTm, hparse, hgetTm, hgetBead, if_neg hst, hdry, Bool.false_eq_true,
    ite_false]
  refine ⟨?_, ?_, ?_⟩
  · intro hgt
    simp [if_pos hgt]
  · intro hlt
    have hngt : ¬ tmTask.updatedAt.getD 0 > beadTask.updatedAt.getD 0 := by omega
    simp [if_neg hngt, if_pos hlt]
  · intro heq
    have hngt : ¬ tmTask.updatedAt.getD 0 > beadTask.updatedAt.getD 0 := by omega
    have hnlt : ¬ beadTask.updatedAt.getD 0 > tmTask.updatedAt.getD 0 := by omega
    simp [if_neg hngt, if_neg hnlt]

/-- Witness for C1 at a concrete equal-timestamp pair: exactly one
conflict, no updates, no mutations. -/
theorem sync_tie_break_exact_witness :
    (SyncEngine.sync envNone [tmFix] [bdFix] ⟨1, [linkFix], none⟩ {} 9).result.conflicts
      = [⟨tmFix, tmFix.status, bdFix.status, "status"⟩]
    ∧ (SyncEngine.sync envNone [tmFix] [bdFix] ⟨1, [linkFix], none⟩ {} 9).result.updated = []
    ∧ (SyncEngine.sync envNone [tmFix] [bdFix] ⟨1, [linkFix], none⟩ {} 9).result.created = []
    ∧ (SyncEngine.sync envNone [tmFix] [bdFix] ⟨1, [linkFix], none⟩ {} 9).mutations = [] :=
  (sync_tie_break_exact envNone {} 9 1 none linkFix tmFix bdFix "1"
    (by decide) rfl rfl (by decide) rfl (by decide) (by decide)).2.2 (by decide)

/-! ### C4 — adapter failures: non-fatal, but never recorded as skipped -/

/-- C4 (counterexample): an unlinked Task-Master task whose bead creation
fails (`createIssue` returns `none`) is still recorded under `created`,
the pass does not abort, and nothing is recorded in `skipped` — the claim
that the failure is recorded as a skipped action is false. -/
theorem sync_failure_not_recorded_skipped_cex :
    envNone.createIssue "TM-2: Add cache" 2 (some 2) = none
    ∧ (SyncEngine.sync envNone [tmFix2] [] emptyLinkStore {} 0).mutations
      = [Mutation.createIssue "TM-2: Add cache" 2 (some 2)]
    ∧ (SyncEngine.sync envNone [tmFix2] [] emptyLinkStore {} 0).result.skipped = []
    ∧ (SyncEngine.sync envNone [tmFix2] [] emptyLinkStore {} 0).result.created ≠ [] := by
  refine ⟨rfl, ?_, rfl, by decide⟩
  rfl

/-- C4 (amended): a Beads-adapter creation failure is non-fatal and does
not change which actions the pass records — the created / updated /
conflict lists are identical under any two adapter environments — but no
failure is ever recorded as a skipped action: `skipped` stays empty. -/
theorem sync_adapter_failure_nonfatal_unrecorded (env1 env2 : SyncEnv)
    (tmTasks beadTasks : List UnifiedTask) (store : LinkStore)
    (opts : SyncOptions) (now : Nat) :
    (SyncEngine.sync env1 tmTasks beadTasks store opts now).result.created
      = (SyncEngine.sync env2 tmTasks beadTasks store opts now).result.created
    ∧ (SyncEngine.sync env1 tmTasks beadTasks store opts now).result.updated
      = (SyncEngine.sync env2 tmTasks beadTasks store opts now).result.updated
    ∧ (SyncEngine.sync env1 tmTasks beadTasks store opts now).result.conflicts
      = (SyncEngine.sync env2 tmTasks beadTasks store opts now).result.conflicts
    ∧ (SyncEngine.sync env1 tmTasks beadTasks store opts now).result.skipped = [] := by
  unfold SyncEngine.sync
  by_cases hdir : opts.direction = some SyncDirection.beads_to_tm
  · by_cases hdry : opts.dryRun <;> simp [hdir, hdry]
  · by_cases hdry : opts.dryRun
    all_goals
      simp only [hdir, hdry, if_false, ite_false, if_true, ite_true]
      exact ⟨(SyncEngine.tmPass_sim env1 env2 _ _ now _ _ tmTasks _ _ rfl rfl rfl).1,
        (SyncEngine.tmPass_sim env1 env2 _ _ now _ _ tmTasks _ _ rfl rfl rfl).2.1,
        (SyncEngine.tmPass_sim env1 env2 _ _ now _ _ tmTasks _ _ rfl rfl rfl).2.2,
        by simp [SyncEngine.tmPass_skipped]⟩
